import Mathlib

/-!
Verification development for a personal finance CLI (single Python file,
`project.py`): a SQLite-backed ledger with user registration/login,
income/expense transactions, monthly reports with budget comparison, and
file-copy backup/restore.

Shallow embedding choices:
* The SQLite database is a record of three row lists (`users`,
  `transactions`, `budgets`), mirroring the schema in `create_tables`.
* SQL `REAL` amounts are embedded as exact rationals (`Rval`, a
  normalized numerator/denominator pair whose operations are
  kernel-computable; the claims only exercise values on which binary
  floating point is also exact).
* Python string formatting (`str(n)`, `f"{n:02d}"`) and parsing
  (`float(...)`, `int(...)`) are embedded as executable functions over
  decimal digit lists (the decimal core of the Python grammar).
* SQLite `strftime('%m'/'%Y', date)` on a `YYYY-MM-DD` text column is
  embedded as a date parser returning the month/year substrings on a
  calendar-valid date and `none` otherwise (SQLite yields NULL on
  unparseable dates, so such rows match no report period).
* The interactive menu loop is embedded as a fuel-indexed function
  consuming a list of stdin lines; a Python exception is an `AppError`
  that aborts the loop (caught only by the top-level handler).
-/

/-- Decimal digit character for `d < 10` (code point `48 + d`). -/
def digitChar (d : Nat) : Char := Char.ofNat (48 + d)

/-- Is `c` an ASCII decimal digit? -/
def isDigit (c : Char) : Bool := 48 ≤ c.toNat && c.toNat ≤ 57

/-- Whitespace as Python's `str.strip` removes it (ASCII core). -/
def isSpace (c : Char) : Bool := c = ' ' || c = '\t' || c = '\n' || c = '\r'

/-- Strip leading and trailing whitespace from a character list. -/
def stripChars (l : List Char) : List Char :=
  ((l.dropWhile isSpace).reverse.dropWhile isSpace).reverse

/-- Python `s.strip()`. -/
def pyStrip (s : String) : String := String.mk (stripChars s.toList)

/-- Lowercase one character (ASCII core of Python `str.lower`). -/
def lowerChar (c : Char) : Char :=
  if 65 ≤ c.toNat ∧ c.toNat ≤ 90 then Char.ofNat (c.toNat + 32) else c

/-- Python `s.lower()`. -/
def pyLower (s : String) : String := String.mk (s.toList.map lowerChar)

/-- Numeric value of an ASCII digit character. -/
def digitVal (c : Char) : Nat := c.toNat - 48

/-- Fuel-driven decimal rendering of a natural number (most significant
digit first); structural on the fuel so concrete values reduce in the
kernel. -/
def natCharsF : Nat → Nat → List Char
  | 0, _ => []
  | f + 1, n => if n < 10 then [digitChar n] else natCharsF f (n / 10) ++ [digitChar (n % 10)]

/-- Decimal digits of a natural number, as Python `str` renders it. -/
def natChars (n : Nat) : List Char := natCharsF (n + 1) n

/-- Decimal rendering of an integer (Python `str(n)` / `"%d" % n`). -/
def intChars (n : Int) : List Char :=
  if n < 0 then '-' :: natChars n.natAbs else natChars n.natAbs

/-- Python `str(n)` for an integer. -/
def intStr (n : Int) : String := String.mk (intChars n)

/-- Python `f"{n:02d}"`: decimal rendering zero-padded to width 2. -/
def pad2Chars (n : Int) : List Char :=
  let l := intChars n
  if l.length < 2 then '0' :: l else l

/-- Python `f"{n:02d}"` as a string. -/
def pad2 (n : Int) : String := String.mk (pad2Chars n)

/-- Value of a digit list read most-significant-first. -/
def digitsVal (l : List Char) : Nat := l.foldl (fun a c => 10 * a + digitVal c) 0

/-- Python `int(s)` on a stripped string: optional sign, then one or more
digits (the decimal core of the grammar; returns `none` where Python
raises `ValueError`). -/
def pythonInt (s : String) : Option Int :=
  let l := stripChars s.toList
  let core : List Char → Option Int := fun ds =>
    if ds = [] then none
    else if ds.all isDigit then some (digitsVal ds) else none
  match l with
  | '-' :: rest => (core rest).map (fun v => -v)
  | '+' :: rest => core rest
  | _ => core l

/-! ## Exact rational amounts

SQL `REAL` / Python `float` amounts are embedded as exact rationals in a
normalized numerator/denominator representation. All operations are
structurally recursive, so concrete report computations reduce in the
kernel; normalization makes structural equality coincide with value
equality for every value the program constructs. -/

/-- Fuel-driven Euclidean gcd (structural, kernel-computable). -/
def natGcdF : Nat → Nat → Nat → Nat
  | 0, _, b => b
  | f + 1, a, b => if a = 0 then b else natGcdF f (b % a) a

/-- Greatest common divisor (fuel `a + 1` always suffices). -/
def natGcd (a b : Nat) : Nat := natGcdF (a + 1) a b

/-- An exact rational amount: normalized numerator/denominator pair. -/
structure Rval where
  num : Int
  den : Nat
deriving DecidableEq, Repr

/-- Build a normalized rational from numerator and (positive) denominator. -/
def Rval.norm (n : Int) (d : Nat) : Rval :=
  let g := natGcd n.natAbs d
  if g = 0 then ⟨0, 0⟩ else ⟨n / g, d / g⟩

instance (n : Nat) : OfNat Rval n := ⟨⟨n, 1⟩⟩

instance : Add Rval :=
  ⟨fun a b => Rval.norm (a.num * b.den + b.num * a.den) (a.den * b.den)⟩

instance : Sub Rval :=
  ⟨fun a b => Rval.norm (a.num * b.den - b.num * a.den) (a.den * b.den)⟩

instance : Mul Rval :=
  ⟨fun a b => Rval.norm (a.num * b.num) (a.den * b.den)⟩

instance : Neg Rval := ⟨fun a => ⟨-a.num, a.den⟩⟩

instance : Div Rval :=
  ⟨fun a b =>
    let n := a.num * b.den
    let d := a.den * b.num
    if d < 0 then Rval.norm (-n) d.natAbs else Rval.norm n d.natAbs⟩

/-- `q ^ k` for a natural exponent. -/
def Rval.powNat (q : Rval) : Nat → Rval
  | 0 => 1
  | k + 1 => Rval.powNat q k * q

/-- `q ^ e` for an integer exponent (as in a float exponent part). -/
def Rval.powInt (q : Rval) (e : Int) : Rval :=
  if e < 0 then (1 : Rval) / Rval.powNat q e.natAbs else Rval.powNat q e.natAbs

/-- Split a leading run of digits: returns (digits, rest). -/
def spanDigits : List Char → List Char × List Char
  | [] => ([], [])
  | c :: cs =>
    if isDigit c then
      let (d, r) := spanDigits cs
      (c :: d, r)
    else ([], c :: cs)

/-- Python `float(s)` restricted to its decimal-literal core (optional sign,
digits with at most one point requiring at least one digit overall,
optional exponent); the result is embedded exactly in `Rval` rather than
rounded to binary (the claims only exercise exactly representable values).
Returns `none` where Python raises `ValueError`. -/
def pythonFloat (s : String) : Option Rval :=
  let l := stripChars s.toList
  let signed : List Char → Rval × List Char := fun l =>
    match l with
    | '-' :: rest => (-1, rest)
    | '+' :: rest => (1, rest)
    | _ => (1, l)
  let (sign, l1) := signed l
  let (ipart, l2) := spanDigits l1
  let (fpart, l3) :=
    match l2 with
    | '.' :: rest => spanDigits rest
    | _ => ([], l2)
  if ipart = [] ∧ fpart = [] then none
  else
    let mantissa : Rval := (⟨(digitsVal (ipart ++ fpart) : Int), 1⟩ : Rval) / Rval.powNat 10 fpart.length
    match l3 with
    | [] => some (sign * mantissa)
    | 'e' :: rest =>
      match pythonInt (String.mk rest) with
      | some e => some (sign * mantissa * Rval.powInt 10 e)
      | none => none
    | 'E' :: rest =>
      match pythonInt (String.mk rest) with
      | some e => some (sign * mantissa * Rval.powInt 10 e)
      | none => none
    | _ => none

/-- Gregorian leap-year test (as SQLite's date logic uses). -/
def isLeap (y : Nat) : Bool := (y % 4 = 0 && y % 100 ≠ 0) || y % 400 = 0

/-- Days in a month (1–12) of year `y`. -/
def daysInMonth (m y : Nat) : Nat :=
  if m = 2 then (if isLeap y then 29 else 28)
  else if m = 4 ∨ m = 6 ∨ m = 9 ∨ m = 11 then 30
  else 31

/-- Parse a `YYYY-MM-DD` date as SQLite's `strftime` accepts it, returning
the (`%Y`, `%m`) substrings; `none` on any other string (where SQLite's
`strftime` returns NULL, so the row matches no report period). -/
def dateParts (s : String) : Option (String × String) :=
  match s.toList with
  | [y1, y2, y3, y4, h1, m1, m2, h2, d1, d2] =>
    if h1 = '-' && h2 = '-' && [y1, y2, y3, y4, m1, m2, d1, d2].all isDigit
        && 1 ≤ 10 * digitVal m1 + digitVal m2 && 10 * digitVal m1 + digitVal m2 ≤ 12
        && 1 ≤ 10 * digitVal d1 + digitVal d2
        && 10 * digitVal d1 + digitVal d2
            ≤ daysInMonth (10 * digitVal m1 + digitVal m2) (digitsVal [y1, y2, y3, y4])
    then some (String.mk [y1, y2, y3, y4], String.mk [m1, m2]) else none
  | _ => none

/-- SQLite `strftime('%Y', date)`. -/
def strftimeY (s : String) : Option String := (dateParts s).map (·.1)

/-- SQLite `strftime('%m', date)`. -/
def strftimeM (s : String) : Option String := (dateParts s).map (·.2)

/-! ## Data model (`create_tables`) -/

/-- A row of the `users` table: `username TEXT PRIMARY KEY, password TEXT NOT NULL`. -/
structure UserRow where
  username : String
  password : String
deriving DecidableEq, Repr

/-- A row of the `transactions` table: surrogate `id`, `username` referencing
`users`, `type` constrained by `CHECK(type IN ('income','expense'))`, `amount REAL`,
free-form `category` and `date`, and `created_at` defaulted to the current
timestamp. -/
structure TxRow where
  id : Nat
  username : String
  type : String
  amount : Rval
  category : String
  date : String
  created_at : Option String
deriving DecidableEq, Repr

/-- A row of the `budgets` table. -/
structure BudgetRow where
  id : Nat
  username : String
  category : String
  amount : Rval
  month : Int
  year : Int
deriving DecidableEq, Repr

/-- The database state: the three tables created by `create_tables`. -/
structure Db where
  users : List UserRow
  transactions : List TxRow
  budgets : List BudgetRow
deriving DecidableEq, Repr

/-- Errors of the application, covering both its printed error messages and
the Python exceptions that escape to the top-level handler. -/
inductive AppError where
  /-- `register`: "Username already exists." -/
  | duplicateUser
  /-- `ValueError` from `float(input("Amount: "))`. -/
  | invalidAmount
  /-- `ValueError` from `int(input(...))` for month or year. -/
  | invalidMonthOrYear
  /-- `sqlite3.IntegrityError` from the `CHECK(type IN ('income','expense'))` constraint. -/
  | checkViolation
  /-- `sqlite3.IntegrityError` from a foreign-key constraint (`PRAGMA foreign_keys = ON`). -/
  | fkViolation
  /-- `restore_database`: "No backup found." -/
  | noBackupFound
  /-- `shutil.copy2` failure in `backup_database` (source file missing). -/
  | backupFailed
  /-- `EOFError`: `input()` at end of stdin. -/
  | eof
deriving DecidableEq, Repr

/-- A Python value appearing in a report cell: a number or a string (the
budget column holds either a `REAL` amount or the placeholder string). -/
inductive PyVal where
  | num : Rval → PyVal
  | str : String → PyVal
deriving DecidableEq, Repr

/-! ## Account functions (`register`, `login`)

Each mutating operation returns the new database state paired with
`Option AppError`; an error component `some e` corresponds to the Python
function printing an error (or raising) without having changed the state. -/

/-- `register`: look up the username; report a duplicate if present,
otherwise insert the row (check-then-insert, as in the source). -/
def register (db : Db) (username password : String) : Db × Option AppError :=
  if db.users.any (fun r => r.username = username) then
    (db, some AppError.duplicateUser)
  else
    ({ db with users := db.users ++ [⟨username, password⟩] }, none)

/-- `login`: `SELECT * FROM users WHERE username=? AND password=?`; returns
the username on a match, `None` otherwise. -/
def login (db : Db) (username password : String) : Option String :=
  if db.users.any (fun r => r.username = username ∧ r.password = password) then
    some username
  else none

/-! ## Transaction functions -/

/-- The `id` SQLite assigns to the next inserted transaction (fresh:
strictly above every existing id). -/
def freshId (db : Db) : Nat :=
  db.transactions.foldl (fun a t => max a t.id) 0 + 1

/-- `add_transaction`, given the four raw input strings: lowercases the
stripped type, parses the amount with `float` (a `ValueError` aborts before
any insert), then performs the `INSERT`, on which SQLite enforces the
`CHECK` constraint on `type` and the foreign key on `username`.
`now` is the `CURRENT_TIMESTAMP` default for `created_at`. -/
def add_transaction (db : Db) (username typeRaw amountRaw category date now : String) :
    Db × Option AppError :=
  let ty := pyLower (pyStrip typeRaw)
  match pythonFloat amountRaw with
  | none => (db, some AppError.invalidAmount)
  | some amt =>
    if ty = "income" ∨ ty = "expense" then
      if db.users.any (fun r => r.username = username) then
        ({ db with transactions :=
            db.transactions ++ [⟨freshId db, username, ty, amt, category, date, some now⟩] },
          none)
      else (db, some AppError.fkViolation)
    else (db, some AppError.checkViolation)

/-- `list_transactions`: `SELECT amount, type, category, date, created_at
FROM transactions WHERE username=?`, in storage order. -/
def list_transactions (db : Db) (username : String) :
    List (Rval × String × String × String × Option String) :=
  (db.transactions.filter (fun t => t.username = username)).map
    (fun t => (t.amount, t.type, t.category, t.date, t.created_at))

/-- Budget insertion through the persistence layer. Modelled from the spec:
no menu action writes budgets ("schema exists, write path absent"), but §3
requires supporting insertion via the persistence layer since the report
reads the table; the `INSERT` is subject to the foreign-key constraint of
the `budgets` schema in the source. -/
def insert_budget (db : Db) (username category : String) (amount : Rval) (month year : Int) :
    Db × Option AppError :=
  if db.users.any (fun r => r.username = username) then
    ({ db with budgets := db.budgets ++ [⟨freshId db, username, category, amount, month, year⟩] },
      none)
  else (db, some AppError.fkViolation)

/-! ## Monthly report (`generate_monthly_report`) -/

/-- The report-period filter of the transactions query:
`strftime('%m', date) = f"{month:02d}" AND strftime('%Y', date) = str(year)`. -/
def matchesPeriod (t : TxRow) (month year : Int) : Bool :=
  strftimeM t.date = some (pad2 month) && strftimeY t.date = some (intStr year)

/-- Add one row's amount to its (category, type) group, appending a new
group if absent. -/
def addToGroups : List (String × String × Rval) → String → String → Rval → List (String × String × Rval)
  | [], c, k, a => [(c, k, a)]
  | (c0, k0, a0) :: rest, c, k, a =>
    if c0 = c ∧ k0 = k then (c0, k0, a0 + a) :: rest
    else (c0, k0, a0) :: addToGroups rest c k a

/-- `SUM(amount) ... GROUP BY category, type`: fold the rows into
per-(category, type) sums. Groups are listed in first-occurrence order
(SQLite's `GROUP BY` output order is unspecified; no claim depends on it). -/
def groupSums (l : List TxRow) : List (String × String × Rval) :=
  l.foldl (fun acc t => addToGroups acc t.category t.type t.amount) []

/-- The result of `generate_monthly_report`: the two tables it tabulates
and the three summary figures it prints. -/
structure Report where
  income_report : List (String × Rval)
  expense_report : List (String × Rval × PyVal)
  total_income : Rval
  total_expense : Rval
  savings : Rval
deriving DecidableEq, Repr

/-- The `for category, type_, amt in data` loop: partition grouped sums
into the income list and the expense list (pairing each expense category
with `budgets.get(category, '-')`) while accumulating the two totals. -/
def reportLoop (lookup : String → Option Rval) :
    List (String × String × Rval) → List (String × Rval) × List (String × Rval × PyVal) × Rval × Rval
  | [] => ([], [], 0, 0)
  | (c, k, a) :: rest =>
    let (inc, exp, ti, te) := reportLoop lookup rest
    if k = "income" then ((c, a) :: inc, exp, ti + a, te)
    else
      let cell := match lookup c with
        | some b => PyVal.num b
        | none => PyVal.str "-"
      (inc, (c, a, cell) :: exp, ti, te + a)

/-- `generate_monthly_report(username)` after `month` and `year` have been
read: the grouped-sum query over the period, the budgets dictionary for
that user/month/year (later rows overwrite earlier, as in the dict
comprehension), the partitioning loop, and the printed totals with
`savings = total_income - total_expense`. -/
def generate_monthly_report (db : Db) (username : String) (month year : Int) : Report :=
  let rows := db.transactions.filter (fun t => t.username = username && matchesPeriod t month year)
  let data := groupSums rows
  let buds := db.budgets.filter (fun b => b.username = username && b.month = month && b.year = year)
  let lookup : String → Option Rval := fun c =>
    ((buds.filter (fun b => b.category = c)).getLast?).map (fun b => b.amount)
  let acc := reportLoop lookup data
  ⟨acc.1, acc.2.1, acc.2.2.1, acc.2.2.2, acc.2.2.1 - acc.2.2.2⟩

/-! ## Backup and restore

The database file and the backup file are modelled as optional byte
contents (`none` = the file does not exist). `backup/` directory creation
(`os.makedirs(..., exist_ok=True)`) is implicit in the backup slot. -/

/-- The file-system state touched by `backup_database`/`restore_database`:
the live database file at `DB_PATH` and the backup at `BACKUP_FILE`. -/
structure Fs where
  live : Option (List Nat)
  backup : Option (List Nat)
deriving DecidableEq, Repr

/-- `backup_database`: `shutil.copy2(DB_PATH, BACKUP_FILE)` — copies the
live file over the backup; raises (`FileNotFoundError`) if the live file
is absent, leaving both files unchanged. -/
def backup_database (fs : Fs) : Fs × Option AppError :=
  match fs.live with
  | some d => ({ fs with backup := some d }, none)
  | none => (fs, some AppError.backupFailed)

/-- `restore_database`: if the backup file exists, copy it over the live
database file; otherwise print "No backup found." and do nothing. -/
def restore_database (fs : Fs) : Fs × Option AppError :=
  match fs.backup with
  | some d => ({ fs with live := some d }, none)
  | none => (fs, some AppError.noBackupFound)

/-! ## The authenticated menu loop (`user_menu`)

Stdin is a list of lines; `input()` takes the next line or raises
`EOFError`. A raised error propagates out of the loop (only the top-level
handler in `__main__` catches it, printing it and ending the process), so
the loop result carries the final database, the unconsumed input and the
escaping error, if any. -/

/-- `input()`: next stdin line, or `None` at end of input. -/
def readLine : List String → Option (String × List String)
  | [] => none
  | l :: ls => some (l, ls)

/-- `add_transaction` at the session level: reads the type line, then the
amount line — `float` raises there before category and date are ever
prompted — then category and date, and performs the insert. -/
def add_transaction_session (db : Db) (username now : String) (ins : List String) :
    Db × List String × Option AppError :=
  match readLine ins with
  | none => (db, [], some AppError.eof)
  | some (tyLine, ins1) =>
    match readLine ins1 with
    | none => (db, [], some AppError.eof)
    | some (amtLine, ins2) =>
      match pythonFloat amtLine with
      | none => (db, ins2, some AppError.invalidAmount)
      | some _ =>
        match readLine ins2 with
        | none => (db, [], some AppError.eof)
        | some (catLine, ins3) =>
          match readLine ins3 with
          | none => (db, [], some AppError.eof)
          | some (dateLine, ins4) =>
            let (db1, e) := add_transaction db username tyLine amtLine (pyStrip catLine) dateLine now
            (db1, ins4, e)

/-- `generate_monthly_report` at the session level: reads and parses the
month and year lines (`int` raises on malformed input), then runs the
report query (whose printed output is the returned `Report`). -/
def report_session (db : Db) (username : String) (ins : List String) :
    List String × Option AppError :=
  match readLine ins with
  | none => ([], some AppError.eof)
  | some (mLine, ins1) =>
    match pythonInt mLine with
    | none => (ins1, some AppError.invalidMonthOrYear)
    | some m =>
      match readLine ins1 with
      | none => ([], some AppError.eof)
      | some (yLine, ins2) =>
        match pythonInt yLine with
        | none => (ins2, some AppError.invalidMonthOrYear)
        | some y =>
          let _ := generate_monthly_report db username m y
          (ins2, none)

/-- `user_menu(username)`: the authenticated menu loop, driven by stdin
lines, with fuel bounding the number of iterations (any fuel at least the
number of input lines is enough, since each iteration consumes one). An
error from a handler stops the loop and propagates. -/
def user_menu : Nat → Db → String → String → List String → Db × List String × Option AppError
  | 0, db, _, _, ins => (db, ins, none)
  | fuel + 1, db, username, now, ins =>
    match readLine ins with
    | none => (db, [], some AppError.eof)
    | some (choice, rest) =>
      if choice = "1" then
        match add_transaction_session db username now rest with
        | (db1, rest1, none) => user_menu fuel db1 username now rest1
        | (db1, rest1, some e) => (db1, rest1, some e)
      else if choice = "2" then
        user_menu fuel db username now rest
      else if choice = "3" then
        match report_session db username rest with
        | (rest1, none) => user_menu fuel db username now rest1
        | (rest1, some e) => (db, rest1, some e)
      else if choice = "4" then
        (db, rest, none)
      else
        user_menu fuel db username now rest

/-! ## Storage-layer invariants -/

/-- The invariants the storage layer maintains: every transaction and
budget row's `username` references an existing user (foreign keys), every
persisted transaction `type` is `income` or `expense` (the `CHECK`
constraint), and usernames are unique (`PRIMARY KEY`). -/
def DbInv (db : Db) : Prop :=
  (∀ t ∈ db.transactions, ∃ r ∈ db.users, r.username = t.username) ∧
  (∀ b ∈ db.budgets, ∃ r ∈ db.users, r.username = b.username) ∧
  (∀ t ∈ db.transactions, t.type = "income" ∨ t.type = "expense") ∧
  (db.users.map (fun r => r.username)).Nodup

instance (db : Db) : Decidable (DbInv db) := by
  unfold DbInv
  infer_instance

/-! ## Concrete states used by the claims -/

/-- The empty database right after `create_tables` on a fresh file. -/
def db0 : Db := ⟨[], [], []⟩

/-- User "alice" registered with password "p1". -/
def dbReg : Db := (register db0 "alice" "p1").1

/-- ... then income 5000, category "Salary", date "2025-04-01". -/
def dbSalary : Db := (add_transaction dbReg "alice" "income" "5000" "Salary" "2025-04-01" "t1").1

/-- ... then expense 1200, category "Rent", date "2025-04-05". -/
def dbAlice : Db := (add_transaction dbSalary "alice" "expense" "1200" "Rent" "2025-04-05" "t2").1

/-- ... then a budget row (via the persistence layer): 1000 for "Rent" in 4/2025. -/
def dbAliceBud : Db := (insert_budget dbAlice "alice" "Rent" 1000 4 2025).1

/-- The empty report: two empty tables and all-zero summary figures. -/
def emptyReport : Report := ⟨[], [], 0, 0, 0⟩

/-! ## Helper lemmas: decimal rendering -/

/-- The fuel of `natCharsF` is irrelevant once it exceeds the argument. -/
theorem natCharsF_irrel (f g n : Nat) (hf : n < f) (hg : n < g) :
    natCharsF f n = natCharsF g n := by
  induction f generalizing g n with
  | zero => omega
  | succ f ih =>
    cases g with
    | zero => omega
    | succ g =>
      by_cases h10 : n < 10
      · simp [natCharsF, h10]
      · have hdiv : n / 10 < n := Nat.div_lt_self (by omega) (by omega)
        simp only [natCharsF, if_neg h10]
        rw [ih g (n / 10) (by omega) (by omega)]

/-- One digit renders as itself. -/
theorem natChars_lt (n : Nat) (h : n < 10) : natChars n = [digitChar n] := by
  simp [natChars, natCharsF, h]

/-- At least two digits: peel off the least significant one. -/
theorem natChars_ge (n : Nat) (h : 10 ≤ n) :
    natChars n = natChars (n / 10) ++ [digitChar (n % 10)] := by
  have hdiv : n / 10 < n := Nat.div_lt_self (by omega) (by omega)
  unfold natChars
  conv_lhs => rw [natCharsF]
  rw [if_neg (by omega)]
  rw [natCharsF_irrel n (n / 10 + 1) (n / 10) (by omega) (by omega)]

/-- A decimal rendering is never empty. -/
theorem natChars_ne_nil (n : Nat) : natChars n ≠ [] := by
  by_cases h : n < 10
  · rw [natChars_lt n h]; simp
  · rw [natChars_ge n (by omega)]; simp

/-- A one-character rendering means a one-digit number. -/
theorem natChars_singleton (n : Nat) (a : Char) (h : natChars n = [a]) :
    n < 10 ∧ a = digitChar n := by
  by_cases h10 : n < 10
  · rw [natChars_lt n h10] at h
    exact ⟨h10, (List.cons.injEq _ _ _ _ ▸ h).1.symm⟩
  · exfalso
    rw [natChars_ge n (by omega)] at h
    have hlen := congrArg List.length h
    simp at hlen
    exact natChars_ne_nil _ hlen

/-- `digitVal` inverts `digitChar` on digits. -/
theorem digitVal_digitChar (d : Nat) (h : d < 10) : digitVal (digitChar d) = d := by
  interval_cases d <;> decide

/-- `digitChar` produces digit characters. -/
theorem isDigit_digitChar (d : Nat) (h : d < 10) : isDigit (digitChar d) = true := by
  interval_cases d <;> decide

/-- `pad2Chars` unfolded. -/
theorem pad2Chars_def (n : Int) :
    pad2Chars n = if (intChars n).length < 2 then '0' :: intChars n else intChars n := rfl

/-- If `f"{n:02d}"` is two digit characters, `n` is their two-digit value
(in particular `0 ≤ n ≤ 99`). -/
theorem pad2Chars_two_digit (n : Int) (a b : Char) (ha : isDigit a = true)
    (hb : isDigit b = true) (h : pad2Chars n = [a, b]) :
    n = ((10 * digitVal a + digitVal b : Nat) : Int) := by
  by_cases hneg : n < 0
  · exfalso
    have hic : intChars n = '-' :: natChars n.natAbs := by simp [intChars, hneg]
    have hlen : ¬ (intChars n).length < 2 := by
      rw [hic]
      cases hnc : natChars n.natAbs with
      | nil => exact absurd hnc (natChars_ne_nil _)
      | cons x xs => simp
    rw [pad2Chars_def, if_neg hlen, hic] at h
    injection h with hhead htail
    rw [← hhead] at ha
    exact absurd ha (by decide)
  · have hm : n = (n.natAbs : Int) := (Int.natAbs_of_nonneg (by omega)).symm
    have hic : intChars n = natChars n.natAbs := by simp [intChars, hneg]
    by_cases hm10 : n.natAbs < 10
    · have hnc : natChars n.natAbs = [digitChar n.natAbs] := natChars_lt _ hm10
      have hlen : (intChars n).length < 2 := by rw [hic, hnc]; simp
      rw [pad2Chars_def, if_pos hlen, hic, hnc] at h
      injection h with hhead htail
      injection htail with hb2 _
      rw [hm, ← hhead, ← hb2, digitVal_digitChar _ hm10]
      have h0 : digitVal '0' = 0 := by decide
      rw [h0]
      omega
    · have h10 : 10 ≤ n.natAbs := by omega
      have hnc := natChars_ge n.natAbs h10
      have hne := natChars_ne_nil (n.natAbs / 10)
      have hlen : ¬ (intChars n).length < 2 := by
        rw [hic, hnc]
        cases hx : natChars (n.natAbs / 10) with
        | nil => exact absurd hx hne
        | cons y ys => simp
      rw [pad2Chars_def, if_neg hlen, hic, hnc] at h
      have hl1 : (natChars (n.natAbs / 10)).length = 1 := by
        have hlen2 := congrArg List.length h
        simp at hlen2
        omega
      obtain ⟨c, hc⟩ := List.length_eq_one.mp hl1
      rw [hc] at h
      simp only [List.singleton_append] at h
      injection h with hca htail
      injection htail with hdb _
      obtain ⟨hdiv10, hcd⟩ := natChars_singleton _ c hc
      rw [hm, ← hca, hcd, ← hdb,
        digitVal_digitChar _ hdiv10, digitVal_digitChar _ (Nat.mod_lt _ (by omega))]
      have := Nat.div_add_mod n.natAbs 10
      omega

/-! ## Helper lemmas: dates and the report period -/

/-- A parsed date's `%m` part is two digit characters whose value is a
calendar month. -/
theorem dateParts_month (s ys ms : String) (h : dateParts s = some (ys, ms)) :
    ∃ a b, ms = String.mk [a, b] ∧ isDigit a = true ∧ isDigit b = true ∧
      1 ≤ 10 * digitVal a + digitVal b ∧ 10 * digitVal a + digitVal b ≤ 12 := by
  unfold dateParts at h
  split at h
  next c0 c1 c2 c3 c4 c5 c6 c7 c8 c9 heq =>
    split at h
    next hcond =>
      simp only [Bool.and_eq_true, List.all_cons, List.all_nil, Bool.and_true,
        decide_eq_true_eq] at hcond
      injection h with hpair
      injection hpair with hys hms
      refine ⟨c5, c6, hms.symm, ?_, ?_, ?_, ?_⟩ <;> tauto
    next => exact absurd h (by simp)
  next => exact absurd h (by simp)

/-- For a month outside 1–12, no transaction matches the report period:
its zero-padded rendering is never the `%m` of a parseable date. -/
theorem matchesPeriod_false_of_month_out (t : TxRow) (m y : Int) (hm : m < 1 ∨ 12 < m) :
    matchesPeriod t m y = false := by
  unfold matchesPeriod
  cases hd : strftimeM t.date with
  | none => simp [hd]
  | some ms =>
    have hne : ms ≠ pad2 m := by
      intro he
      obtain ⟨ys0, hpr⟩ : ∃ a, dateParts t.date = some (a, ms) := by
        simpa [strftimeM] using hd
      obtain ⟨a, b, hms, ha, hb, h1, h2⟩ := dateParts_month t.date ys0 ms hpr
      have hpc : pad2Chars m = [a, b] := by
        have hsm : pad2 m = String.mk [a, b] := by rw [← he]; exact hms
        exact congrArg String.data hsm
      have := pad2Chars_two_digit m a b ha hb hpc
      omega
    simp [hd, hne]

/-- If no transaction of the user matches the period, the report is the
empty report (two empty tables and all-zero summary figures). -/
theorem report_eq_empty (db : Db) (u : String) (m y : Int)
    (h : ∀ t ∈ db.transactions, (t.username = u && matchesPeriod t m y) = false) :
    generate_monthly_report db u m y = emptyReport := by
  have hf : db.transactions.filter (fun t => t.username = u && matchesPeriod t m y) = [] :=
    List.filter_eq_nil_iff.mpr (by intro t ht; simp [h t ht])
  unfold generate_monthly_report
  rw [hf]
  have h00 : (0 : Rval) - 0 = 0 := rfl
  simp [groupSums, reportLoop, emptyReport, h00]

/-! ## Helper lemmas: fresh transaction ids -/

/-- The max-fold over ids is at least its initial value. -/
theorem foldl_max_init_le (l : List TxRow) (a : Nat) :
    a ≤ l.foldl (fun acc t => max acc t.id) a := by
  induction l generalizing a with
  | nil => simp
  | cons x xs ih =>
    simp only [List.foldl_cons]
    exact le_trans (le_max_left a x.id) (ih (max a x.id))

/-- The max-fold over ids bounds every member's id. -/
theorem id_le_foldl_max (l : List TxRow) (a : Nat) (t : TxRow) (ht : t ∈ l) :
    t.id ≤ l.foldl (fun acc t => max acc t.id) a := by
  induction l generalizing a with
  | nil => cases ht
  | cons x xs ih =>
    simp only [List.foldl_cons]
    rcases List.mem_cons.mp ht with h | h
    · subst h; exact le_trans (le_max_right a t.id) (foldl_max_init_le xs _)
    · exact ih _ h

/-- Every existing transaction id is strictly below the next assigned id. -/
theorem id_lt_freshId (db : Db) (t : TxRow) (ht : t ∈ db.transactions) :
    t.id < freshId db := by
  unfold freshId
  have := id_le_foldl_max db.transactions 0 t ht
  omega

/-! ## Claim C1 -/

/-- C1: for a username not present in the user table, `register` succeeds and
inserts the user; `login` with the same credentials then succeeds (returning
the username); a second `register` with the same username (any password)
fails with the duplicate-user error, inserting nothing and leaving the user
table unchanged. -/
theorem C1_register_then_authenticate (db : Db) (u p p2 : String)
    (h : ∀ r ∈ db.users, r.username ≠ u) :
    register db u p = ({ db with users := db.users ++ [⟨u, p⟩] }, none) ∧
    login { db with users := db.users ++ [⟨u, p⟩] } u p = some u ∧
    register { db with users := db.users ++ [⟨u, p⟩] } u p2 =
      ({ db with users := db.users ++ [⟨u, p⟩] }, some AppError.duplicateUser) := by
  have hAny : (db.users.any fun r => r.username = u) = false := by
    simp only [List.any_eq_false, decide_eq_true_eq]
    exact fun r hr => h r hr
  refine ⟨by simp [register, hAny], ?_, ?_⟩
  · have hex : ((db.users ++ [(⟨u, p⟩ : UserRow)]).any
        fun r => r.username = u ∧ r.password = p) = true := by
      simp [List.any_eq_true]
    simp [login, hex]
  · have hex : ((db.users ++ [(⟨u, p⟩ : UserRow)]).any fun r => r.username = u) = true := by
      simp [List.any_eq_true]
    simp [register, hex]

/-- Witness for C1: the concrete "alice" scenario on the fresh database. -/
theorem C1_witness :
    register db0 "alice" "p1" = ({ db0 with users := db0.users ++ [⟨"alice", "p1"⟩] }, none) ∧
    login { db0 with users := db0.users ++ [⟨"alice", "p1"⟩] } "alice" "p1" = some "alice" ∧
    register { db0 with users := db0.users ++ [⟨"alice", "p1"⟩] } "alice" "p2" =
      ({ db0 with users := db0.users ++ [⟨"alice", "p1"⟩] }, some AppError.duplicateUser) :=
  C1_register_then_authenticate db0 "alice" "p1" "p2" (by decide)

/-! ## Claim C2 -/

/-- C2 counterexample: the budget placeholder the code pairs with an
unbudgeted expense category is the ASCII hyphen `"-"` (from
`budgets.get(category, '-')`), not the em dash `"—"`: in the alice
scenario the April-2025 expense list is `[("Rent", 1200, "-")]`. -/
theorem C2_counterexample :
    (generate_monthly_report dbAlice "alice" 4 2025).expense_report ≠
      [("Rent", 1200, PyVal.str "—")] := by decide

/-- C2 (amended: the placeholder sentinel is `"-"`, not `"—"`): the alice
scenario yields income `[("Salary", 5000)]`, expenses `[("Rent", 1200, "-")]`,
totals 5000/1200 and savings 3800; with a 1000 budget row for "Rent" the
expense row instead carries the budget amount; and in every report
`savings = totalIncome - totalExpense`. -/
theorem C2_report_scenario :
    generate_monthly_report dbAlice "alice" 4 2025 =
      ⟨[("Salary", 5000)], [("Rent", 1200, PyVal.str "-")], 5000, 1200, 3800⟩ ∧
    generate_monthly_report dbAliceBud "alice" 4 2025 =
      ⟨[("Salary", 5000)], [("Rent", 1200, PyVal.num 1000)], 5000, 1200, 3800⟩ ∧
    ∀ db u m y, (generate_monthly_report db u m y).savings =
      (generate_monthly_report db u m y).total_income -
        (generate_monthly_report db u m y).total_expense := by
  exact ⟨by decide, by decide, fun db u m y => rfl⟩

/-! ## Claims C3 and C4 -/

/-- Shape of a successful `add_transaction`: the amount parsed, the
normalized kind passed the `CHECK` constraint, the user exists, and exactly
the one new row (fresh id, normalized kind, `created_at` populated) was
appended. -/
theorem add_transaction_ok (db : Db) (u kRaw aRaw cat date now : String) (db' : Db)
    (h : add_transaction db u kRaw aRaw cat date now = (db', none)) :
    ∃ amt, pythonFloat aRaw = some amt ∧
      db' = { db with transactions := db.transactions ++
        [⟨freshId db, u, pyLower (pyStrip kRaw), amt, cat, date, some now⟩] } ∧
      (pyLower (pyStrip kRaw) = "income" ∨ pyLower (pyStrip kRaw) = "expense") ∧
      (db.users.any fun r => r.username = u) = true := by
  cases hpf : pythonFloat aRaw with
  | none => simp only [add_transaction, hpf] at h; simp at h
  | some amt =>
    simp only [add_transaction, hpf] at h
    split at h
    next hk =>
      split at h
      next hA =>
        injection h with h1 h2
        exact ⟨amt, rfl, h1.symm, hk, by simpa using hA⟩
      next hA => simp at h
    next => simp at h

/-- C3 counterexample: after an unparseable amount, the `ValueError` escapes
the menu loop, so NOT "only that operation is aborted": the session ends
with the error, the rest of the input script (including a second, valid
add-transaction command, which the second conjunct shows would succeed on
its own) is never processed, and the database still has no transactions. -/
theorem C3_counterexample :
    user_menu 9 dbReg "alice" "ts"
        ["1", "income", "abc", "1", "income", "50", "Food", "2025-04-05", "4"] =
      (dbReg, ["1", "income", "50", "Food", "2025-04-05", "4"], some AppError.invalidAmount) ∧
    (add_transaction dbReg "alice" "income" "50" "Food" "2025-04-05" "ts").2 = none :=
  ⟨by decide, by decide⟩

/-- C3 (amended): `add_transaction` normalizes the stripped kind to
lowercase, and (via the schema CHECK constraint) a successful insert means
the normalized kind is exactly `income` or `expense`; an amount that does
not parse fails with the invalid-amount error before any insert, leaving
the database unchanged — but the error propagates out of the menu loop
(ending the session at the top-level handler) rather than aborting only
that operation. -/
theorem C3_add_transaction (db : Db) (u kRaw aRaw cat date now : String) :
    (pythonFloat aRaw = none →
      add_transaction db u kRaw aRaw cat date now = (db, some AppError.invalidAmount)) ∧
    (∀ db', add_transaction db u kRaw aRaw cat date now = (db', none) →
      (pyLower (pyStrip kRaw) = "income" ∨ pyLower (pyStrip kRaw) = "expense") ∧
      ∃ amt, pythonFloat aRaw = some amt ∧
        db'.transactions = db.transactions ++
          [⟨freshId db, u, pyLower (pyStrip kRaw), amt, cat, date, some now⟩]) ∧
    (∀ (f : Nat) (rest : List String), pythonFloat aRaw = none →
      user_menu (f + 1) db u now ("1" :: kRaw :: aRaw :: rest) =
        (db, rest, some AppError.invalidAmount)) := by
  refine ⟨?_, ?_, ?_⟩
  · intro h; simp [add_transaction, h]
  · intro db' h
    obtain ⟨amt, hpf, hdb, hk, _⟩ := add_transaction_ok db u kRaw aRaw cat date now db' h
    exact ⟨hk, amt, hpf, by rw [hdb]⟩
  · intro f rest h
    simp [user_menu, readLine, add_transaction_session, h]

/-- Witness for C3: a bad amount aborts with the invalid-amount error and
an unchanged database, both at the operation level and at the session
level. -/
theorem C3_witness :
    add_transaction dbReg "alice" " Income " "abc" "Food" "2025-04-05" "ts" =
      (dbReg, some AppError.invalidAmount) ∧
    user_menu 3 dbReg "alice" "ts" ["1", "expense", "oops"] =
      (dbReg, [], some AppError.invalidAmount) :=
  ⟨(C3_add_transaction dbReg "alice" " Income " "abc" "Food" "2025-04-05" "ts").1 (by decide),
   (C3_add_transaction dbReg "alice" "expense" "oops" "c" "d" "ts").2.2 2 [] (by decide)⟩

/-- C4: a transaction added by `add_transaction` appears in
`list_transactions` for that user exactly once, with amount, kind,
category and date equal to the inserted values and `created_at`
populated. -/
theorem C4_list_transactions (db : Db) (u kRaw aRaw cat date now : String) (db' : Db)
    (h : add_transaction db u kRaw aRaw cat date now = (db', none)) :
    ∃ amt, pythonFloat aRaw = some amt ∧
      db'.transactions = db.transactions ++
        [⟨freshId db, u, pyLower (pyStrip kRaw), amt, cat, date, some now⟩] ∧
      list_transactions db' u = list_transactions db u ++
        [(amt, pyLower (pyStrip kRaw), cat, date, some now)] ∧
      db'.transactions.countP (fun t => t.id = freshId db) = 1 ∧
      (some now).isSome = true := by
  obtain ⟨amt, hpf, hdb, _, _⟩ := add_transaction_ok db u kRaw aRaw cat date now db' h
  subst hdb
  refine ⟨amt, hpf, rfl, ?_, ?_, rfl⟩
  · simp [list_transactions, List.filter_append]
  · simp only [List.countP_append]
    have h0 : db.transactions.countP (fun t => t.id = freshId db) = 0 := by
      apply List.countP_eq_zero.mpr
      intro t ht
      simp only [decide_eq_true_eq]
      exact Nat.ne_of_lt (id_lt_freshId db t ht)
    rw [h0]
    simp [List.countP_cons]

/-- Witness for C4: the salary transaction of the alice scenario. -/
theorem C4_witness :
    ∃ amt, pythonFloat "5000" = some amt ∧
      dbSalary.transactions = dbReg.transactions ++
        [⟨freshId dbReg, "alice", pyLower (pyStrip "income"), amt, "Salary", "2025-04-01",
          some "t1"⟩] ∧
      list_transactions dbSalary "alice" = list_transactions dbReg "alice" ++
        [(amt, pyLower (pyStrip "income"), "Salary", "2025-04-01", some "t1")] ∧
      dbSalary.transactions.countP (fun t => t.id = freshId dbReg) = 1 ∧
      (some "t1").isSome = true :=
  C4_list_transactions dbReg "alice" "income" "5000" "Salary" "2025-04-01" "t1" dbSalary
    (by decide)

/-! ## Claim C5 -/

/-- C6: `backup_database` on an existing live file succeeds, and after the
live file is deleted or arbitrarily replaced, `restore_database` makes the
live file byte-for-byte equal to the state at backup time. -/
theorem C6_backup_restore_roundtrip (d : List Nat) (b0 tamper : Option (List Nat)) :
    (backup_database ⟨some d, b0⟩).2 = none ∧
    (restore_database ⟨tamper, (backup_database ⟨some d, b0⟩).1.backup⟩).1.live = some d :=
  ⟨rfl, rfl⟩

/-! ## Claim C7 -/

/-- C7: `login` succeeds (returning the username) exactly when some stored
row matches both username and password; its only other outcome is the
non-exception failure signal `None`; and with a correct username but a
wrong password it always fails. -/
theorem C7_login_exact_match (db : Db) (u p : String) :
    (login db u p = some u ↔ ∃ r ∈ db.users, r.username = u ∧ r.password = p) ∧
    (login db u p = some u ∨ login db u p = none) ∧
    ((∀ r ∈ db.users, r.username = u → r.password ≠ p) → login db u p = none) := by
  refine ⟨⟨?_, ?_⟩, ?_, ?_⟩
  · intro hl
    unfold login at hl
    split at hl
    next hA => simpa [List.any_eq_true, decide_eq_true_eq] using hA
    next => exact absurd hl (by simp)
  · rintro ⟨r, hr, h1, h2⟩
    have hA : (db.users.any fun r => r.username = u ∧ r.password = p) = true := by
      simp only [List.any_eq_true, decide_eq_true_eq]
      exact ⟨r, hr, h1, h2⟩
    simp [login, hA]
    exact ⟨r, hr, h1, h2⟩
  · unfold login
    split
    · exact Or.inl rfl
    · exact Or.inr rfl
  · intro h
    have hA : (db.users.any fun r => r.username = u ∧ r.password = p) = false := by
      simp only [List.any_eq_false, decide_eq_true_eq, not_and]
      exact fun r hr h1 => h r hr h1
    simp [login, hA]
    exact fun x hx h1 => h x hx h1

/-- Witness for C7: a wrong password for the stored user "alice" fails. -/
theorem C7_witness : login dbReg "alice" "wrong" = none :=
  (C7_login_exact_match dbReg "alice" "wrong").2.2 (by decide)

/-! ## Claim C8 -/

/-- C8: when no backup file exists, `restore_database` reports the
no-backup-found error and changes nothing: the live file (and hence all
stored state) is left exactly as it was. -/
theorem C8_restore_without_backup (live : Option (List Nat)) :
    restore_database ⟨live, none⟩ = (⟨live, none⟩, some AppError.noBackupFound) := rfl

/-! ## Claim C9 -/

/-- C9: the storage layer maintains, across the mutating operations
(registration, transaction insert, and budget insert through the
persistence layer), that every transaction and budget row's username
references an existing user, every persisted transaction kind is exactly
`income` or `expense`, and usernames are unique. -/
theorem C9_storage_invariants (db : Db) (hInv : DbInv db)
    (ru rp tu kRaw aRaw cat date now bu bc : String) (ba : Rval) (bm by2 : Int) :
    DbInv (register db ru rp).1 ∧
    DbInv (add_transaction db tu kRaw aRaw cat date now).1 ∧
    DbInv (insert_budget db bu bc ba bm by2).1 := by
  obtain ⟨hTfk, hBfk, hKind, hNodup⟩ := hInv
  refine ⟨?_, ?_, ?_⟩
  · unfold register
    cases hA : (db.users.any fun r => r.username = ru) with
    | true => simp only [hA, if_pos rfl, ite_true]; exact ⟨hTfk, hBfk, hKind, hNodup⟩
    | false =>
      simp only [hA, Bool.false_eq_true, if_neg, ite_false]
      refine ⟨?_, ?_, hKind, ?_⟩
      · intro t ht
        obtain ⟨r, hr, hru⟩ := hTfk t ht
        exact ⟨r, List.mem_append_left _ hr, hru⟩
      · intro b hb
        obtain ⟨r, hr, hru⟩ := hBfk b hb
        exact ⟨r, List.mem_append_left _ hr, hru⟩
      · rw [List.map_append]
        rw [List.nodup_append]
        refine ⟨hNodup, by simp, ?_⟩
        intro a ha hb
        simp only [List.map_cons, List.map_nil, List.mem_singleton] at hb
        subst hb
        obtain ⟨r, hr, hru⟩ := List.mem_map.mp ha
        have := List.any_eq_false.mp hA r hr
        simp only [decide_eq_true_eq] at this
        exact this hru
  · cases hop : add_transaction db tu kRaw aRaw cat date now with
    | mk db' e =>
      cases e with
      | some err =>
        have hdb : db' = db := by
          unfold add_transaction at hop
          cases hpf : pythonFloat aRaw with
          | none => simp only [add_transaction, hpf] at hop; exact (Prod.mk.injEq _ _ _ _ ▸ hop).1.symm
          | some amt =>
            simp only [add_transaction, hpf] at hop
            split at hop
            next =>
              split at hop
              next => simp at hop
              next => exact ((Prod.mk.injEq _ _ _ _).mp hop).1.symm
            next => exact ((Prod.mk.injEq _ _ _ _).mp hop).1.symm
        rw [hdb]
        exact ⟨hTfk, hBfk, hKind, hNodup⟩
      | none =>
        obtain ⟨amt, hpf, hdb, hk, hA⟩ :=
          add_transaction_ok db tu kRaw aRaw cat date now db' hop
        subst hdb
        refine ⟨?_, hBfk, ?_, hNodup⟩
        · intro t ht
          rcases List.mem_append.mp ht with hmem | hmem
          · obtain ⟨r, hr, hru⟩ := hTfk t hmem
            exact ⟨r, hr, hru⟩
          · simp only [List.mem_singleton] at hmem
            subst hmem
            obtain ⟨r, hr, hru⟩ := List.any_eq_true.mp hA
            simp only [decide_eq_true_eq] at hru
            exact ⟨r, hr, hru⟩
        · intro t ht
          rcases List.mem_append.mp ht with hmem | hmem
          · exact hKind t hmem
          · simp only [List.mem_singleton] at hmem
            subst hmem
            exact hk
  · unfold insert_budget
    cases hA : (db.users.any fun r => r.username = bu) with
    | false => simp only [hA, Bool.false_eq_true, if_neg, ite_false]
               exact ⟨hTfk, hBfk, hKind, hNodup⟩
    | true =>
      simp only [hA, if_pos rfl, ite_true]
      refine ⟨hTfk, ?_, hKind, hNodup⟩
      intro b hb
      rcases List.mem_append.mp hb with hmem | hmem
      · obtain ⟨r, hr, hru⟩ := hBfk b hmem
        exact ⟨r, hr, hru⟩
      · simp only [List.mem_singleton] at hmem
        subst hmem
        obtain ⟨r, hr, hru⟩ := List.any_eq_true.mp hA
        simp only [decide_eq_true_eq] at hru
        exact ⟨r, hr, hru⟩

/-- Witness for C9: the invariants hold after a fresh registration, a new
transaction and a new budget row on the alice database. -/
theorem C9_witness :
    DbInv (register dbAlice "bob" "pw").1 ∧
    DbInv (add_transaction dbAlice "alice" "expense" "30" "Misc" "2025-04-08" "t3").1 ∧
    DbInv (insert_budget dbAlice "alice" "Food" 500 4 2025).1 :=
  C9_storage_invariants dbAlice (by decide) "bob" "pw" "alice" "expense" "30" "Misc"
    "2025-04-08" "t3" "alice" "Food" 500 4 2025

/-! ## Claim C10 -/

/-- C10: for any integer month outside 1–12, `generate_monthly_report`
raises no range error: the zero-padded month matches no transaction date's
`%m` part, so the report is the empty report with all-zero totals. -/
theorem C10_month_out_of_range (db : Db) (u : String) (m y : Int) (h : m < 1 ∨ 12 < m) :
    generate_monthly_report db u m y = emptyReport := by
  apply report_eq_empty
  intro t ht
  rw [matchesPeriod_false_of_month_out t m y h]
  simp

/-- Witness for C10: month 13 on the alice database yields the empty
report. -/
theorem C10_witness : generate_monthly_report dbAlice "alice" 13 2025 = emptyReport :=
  C10_month_out_of_range dbAlice "alice" 13 2025 (by decide)
